import Mathlib

/-
Verification of the core logic of the jupyter-js-filebrowser repository:
a shallow embedding, in Lean 4, of the path resolver (`normalizePath`),
the upload pipeline of `FileBrowserViewModel` (`upload` / `_upload`),
the directory-open and session-recompute logic (`open` / `_findSessions`),
the multi-file upload batch handler (`FileButtons._handleUploadEvent`),
and the shift-click range-selection algorithm (`FileBrowser._evtClick`).

JavaScript strings are modelled as Lean `String`s; the handful of
JavaScript string operations the source uses (`split`, `slice`,
`indexOf(x) === 0`, `indexOf(x) !== -1`, truthiness of a string) are
given explicit executable counterparts over `String.data` so that every
definition evaluates by kernel reduction.
-/

/-- JavaScript `s.split(sep)` on a list of characters: splits on every
occurrence of `sep`, keeping empty fragments (so `""` splits to `[""]`). -/
def charsSplit (sep : Char) : List Char → List Char → List (List Char)
  | [], acc => [acc.reverse]
  | c :: cs, acc =>
    if c = sep then acc.reverse :: charsSplit sep cs []
    else charsSplit sep cs (c :: acc)

/-- JavaScript `s.split(sep)` for a one-character separator. -/
def jsSplit (sep : Char) (s : String) : List String :=
  (charsSplit sep s.data []).map String.mk

/-- JavaScript `parts.join('/')`. -/
def joinSlash (l : List String) : String :=
  String.mk (List.intercalate ['/'] (l.map String.data))

/-- JavaScript `s.indexOf(pre) === 0`. -/
def jsStartsWith (s pre : String) : Bool :=
  pre.data.isPrefixOf s.data

/-- JavaScript `s.slice(n, s.length)`: drop the first `n` characters. -/
def strDrop (s : String) (n : Nat) : String :=
  String.mk (s.data.drop n)

/-- JavaScript substring test `hay.indexOf(needle) !== -1`, on char lists. -/
def hasSubstr (needle : List Char) : List Char → Bool
  | [] => needle.isEmpty
  | c :: t => needle.isPrefixOf (c :: t) || hasSubstr needle t

/-- JavaScript `hay.indexOf(sub) !== -1` on strings. -/
def strContainsStr (hay sub : String) : Bool :=
  hasSubstr sub.data hay.data

/-- The trailing-slash strip in `normalizePath`:
`if (path[path.length - 1] === '/') path = path.slice(0, path.length - 1)`. -/
def stripTrailingSlash (path : String) : String :=
  if path.data.getLast? = some '/' then String.mk path.data.dropLast else path

/-- The final combination step of `normalizePath`: strip a single trailing
slash, then `if (root && path) path = root + '/' + path; else if (root)
path = root;` (JavaScript string truthiness is non-emptiness). -/
def combineRootPath (root path : String) : String :=
  let path := stripTrailingSlash path
  if root ≠ "" ∧ path ≠ "" then root ++ "/" ++ path
  else if root ≠ "" then root
  else path

/-- `root.split('/'); root = parts.splice(0, parts.length - n).join('/')`:
keep all but the last `n` segments of `root`.  JavaScript `splice` with a
negative delete count removes nothing and returns `[]`, which coincides
with `List.take` under truncated `Nat` subtraction. -/
def dropLastSegs (root : String) (n : Nat) : String :=
  joinSlash ((jsSplit '/' root).take ((jsSplit '/' root).length - n))

/-- Embedding of `normalizePath(root, path)` from `src/browser.ts`:
branch on `'.'`, a leading `'/'`, a leading `'./'`, a leading `'../../'`,
a leading `'../'`, or none of these, then strip one trailing slash and
combine with the (possibly shortened or discarded) root. -/
def normalizePath (root path : String) : String :=
  if path = "." then root
  else if jsStartsWith path "/" then combineRootPath "" (strDrop path 1)
  else if jsStartsWith path "./" then combineRootPath root (strDrop path 2)
  else if jsStartsWith path "../../" then
    combineRootPath (dropLastSegs root 2) (strDrop path 6)
  else if jsStartsWith path "../" then
    combineRootPath (dropLastSegs root 1) (strDrop path 3)
  else combineRootPath root path

example : normalizePath "a/b" "." = "a/b" := by decide
example : normalizePath "a/b" "../c" = "a/c" := by decide
example : normalizePath "a/b" "../../c" = "c" := by decide
example : normalizePath "a" "/x/y" = "x/y" := by decide
example : normalizePath "a/b" "./c/" = "a/b/c" := by decide

/-- C1 counterexample: the claim asserts `resolve("a/b", "../../../c")`
clamps to `"c"`, but `normalizePath` consumes only the first `"../../"`
prefix; the third `"../"` survives verbatim and the result is `"../c"`. -/
theorem normalizePath_triple_parent_counterexample :
    normalizePath "a/b" "../../../c" = "../c" ∧
    ¬ normalizePath "a/b" "../../../c" = "c" := by
  constructor
  · decide
  · decide

/-- C1 (amended): `normalizePath` consumes at most one leading `"../../"`
prefix; the root-segment drop itself clamps at the repository root (for a
root of at most two segments, `resolve(root, "../../c") = "c"`, never
indexing past the root), while a deeper chain of parent segments is left
in the output: `resolve("a/b", "../../../c") = "../c"`. -/
theorem normalizePath_parent_clamps_at_root :
    (∀ root : String, (jsSplit '/' root).length ≤ 2 →
      normalizePath root "../../c" = "c") ∧
    normalizePath "a/b" "../../../c" = "../c" := by
  constructor
  · intro root h
    have h2 : (jsSplit '/' root).length - 2 = 0 := by omega
    have hd : dropLastSegs root 2 = "" := by
      unfold dropLastSegs
      rw [h2]
      rfl
    have e1 : normalizePath root "../../c" = combineRootPath (dropLastSegs root 2) "c" := rfl
    rw [e1, hd]
    rfl
  · decide

/-- Witness for the amended C1 theorem at the concrete root `"a"`. -/
theorem normalizePath_parent_clamps_witness :
    (jsSplit '/' "a").length ≤ 2 ∧ normalizePath "a" "../../c" = "c" :=
  ⟨by decide, normalizePath_parent_clamps_at_root.1 "a" (by decide)⟩

/-- JavaScript `Math.abs(a - b)` on row indices. -/
def absDist (a b : Nat) : Nat := max a b - min a b

/-- One step of the nearest-selected scan in `FileBrowser._evtClick`:
skip the clicked row `k`; for a selected row `i`, adopt it when no
candidate exists yet, or when `Math.abs(index - i) < Math.abs(nearestIndex - i)`
(the source compares the distance of the clicked row to the new row
against the distance of the current candidate to the new row). -/
def nearestStep (k : Nat) (acc : Option Nat) (i : Nat) (s : Bool) : Option Nat :=
  if i = k then acc
  else if s then
    match acc with
    | none => some i
    | some a => if absDist k i < absDist a i then some i else acc
  else acc

/-- The full ascending scan over the rows (`for (var i = 0; i < nodes.length; i++)`),
`none` standing for the sentinel `-1`. -/
def findNearest (sel : List Bool) (k : Nat) : Option Nat :=
  (List.range sel.length).foldl (fun acc i => nearestStep k acc i (sel.getD i false)) none

/-- The row-selection condition of the shift-click loop, verbatim:
`nearestIndex >= i && index <= i || nearestIndex <= i && index >= i`. -/
def spanCond (a k i : Nat) : Bool :=
  decide ((a ≥ i ∧ k ≤ i) ∨ (a ≤ i ∧ k ≥ i))

/-- Embedding of the shift-click branch of `FileBrowser._evtClick`:
the selected flag of each row after the click.  The anchor defaults to
row `0` when the scan found no candidate; rows inside the span gain the
selected class, rows outside keep their previous state. -/
def shiftClick (sel : List Bool) (k : Nat) : List Bool :=
  (List.range sel.length).map
    (fun i => sel.getD i false || spanCond ((findNearest sel k).getD 0) k i)

/-- Modelled from the spec: the anchor is the already-selected row whose
index distance to the clicked row `k` is smallest, ties broken by the
first-found candidate in ascending index scan order, or index `0` when
no row is selected. -/
def specNearestSelected (sel : List Bool) (k : Nat) : Nat :=
  match (sel.enum.filter (fun p => p.2)).map (fun p => p.1) with
  | [] => 0
  | s :: ss => ss.foldl (fun best i => if absDist k i < absDist k best then i else best) s

/-- Modelled from the spec: shift-click selects exactly the rows between
the spec's anchor and the clicked row inclusive, preserving the state of
every row outside that span. -/
def specShiftClick (sel : List Bool) (k : Nat) : List Bool :=
  (List.range sel.length).map
    (fun i => sel.getD i false ||
      decide (min (specNearestSelected sel k) k ≤ i ∧ i ≤ max (specNearestSelected sel k) k))

/-- C2 counterexample: with rows `[0..4]`, rows 0 and 2 selected, and a
shift-click on row 4, the spec's anchor is row 2 (distance 2 beats
distance 4) leaving row 1 untouched, but the source's scan keeps row 0
as anchor (it compares `|4 - 2| < |0 - 2|`, which is false) and selects
the whole span `[0,4]`, turning row 1 on. -/
theorem shiftClick_nearest_counterexample :
    shiftClick [true, false, true, false, false] 4 = [true, true, true, true, true] ∧
    specShiftClick [true, false, true, false, false] 4 = [true, false, true, true, true] ∧
    ¬ shiftClick [true, false, true, false, false] 4 =
        specShiftClick [true, false, true, false, false] 4 := by
  refine ⟨by decide, by decide, by decide⟩

/-- The scan step only ever produces a selected row distinct from the clicked row. -/
theorem nearest_foldl_inv (sel : List Bool) (k : Nat) :
    ∀ (l : List Nat) (acc : Option Nat),
      (∀ a, acc = some a → sel.getD a false = true ∧ a ≠ k) →
      ∀ a, l.foldl (fun acc i => nearestStep k acc i (sel.getD i false)) acc = some a →
        sel.getD a false = true ∧ a ≠ k := by
  intro l
  induction l with
  | nil => intro acc hacc a ha; exact hacc a ha
  | cons i t ih =>
    intro acc hacc a ha
    refine ih (nearestStep k acc i (sel.getD i false)) ?_ a ha
    intro b hb
    unfold nearestStep at hb
    by_cases hik : i = k
    · rw [if_pos hik] at hb; exact hacc b hb
    · rw [if_neg hik] at hb
      by_cases hs : sel.getD i false = true
      · rw [if_pos hs] at hb
        cases hacc' : acc with
        | none =>
          rw [hacc'] at hb
          simp only [Option.some.injEq] at hb
          exact hb ▸ ⟨hs, hik⟩
        | some c =>
          rw [hacc'] at hb
          have hb' : (if absDist k i < absDist c i then some i else some c) = some b := hb
          by_cases hd : absDist k i < absDist c i
          · rw [if_pos hd] at hb'
            simp only [Option.some.injEq] at hb'
            exact hb' ▸ ⟨hs, hik⟩
          · rw [if_neg hd] at hb'
            exact hacc b (hacc'.trans hb')
      · simp only [Bool.not_eq_true] at hs
        rw [hs] at hb
        simp only [Bool.false_eq_true, if_false] at hb
        exact hacc b hb

example : shiftClick [false, true, false, false, false] 3 = [false, true, true, true, false] := by
  decide

/-- The selected flag of row `i` after a shift-click, for `i` in range. -/
theorem shiftClick_getD (sel : List Bool) (k i : Nat) (h : i < sel.length) :
    (shiftClick sel k).getD i false
      = (sel.getD i false || spanCond ((findNearest sel k).getD 0) k i) := by
  unfold shiftClick
  rw [List.getD_eq_getElem?_getD, List.getElem?_map, List.getElem?_range h]
  rfl

/-- C2 (amended): the anchor of a shift-click on row `k` is computed by an
ascending scan that skips `k` itself: the first selected row becomes the
candidate and a later selected row `i` replaces the candidate `a` exactly
when `|k - i| < |a - i|` (the source compares distances to the candidate
row, not to the clicked row, so the anchor is not always the nearest
selected row, and a selected clicked row never anchors itself); the anchor
defaults to row 0 when the scan finds no candidate.  Every row between the
anchor and `k` inclusive becomes selected, and every row outside that span
keeps its prior state. -/
theorem shiftClick_range_behavior :
    ∀ (sel : List Bool) (k : Nat), k < sel.length →
      (shiftClick sel k).length = sel.length ∧
      (∀ a, findNearest sel k = some a → sel.getD a false = true ∧ a ≠ k) ∧
      (∀ i, i < sel.length →
        ((min ((findNearest sel k).getD 0) k ≤ i ∧ i ≤ max ((findNearest sel k).getD 0) k) →
          (shiftClick sel k).getD i false = true) ∧
        (¬ (min ((findNearest sel k).getD 0) k ≤ i ∧ i ≤ max ((findNearest sel k).getD 0) k) →
          (shiftClick sel k).getD i false = sel.getD i false)) := by
  intro sel k hk
  refine ⟨by simp [shiftClick], ?_, ?_⟩
  · intro a ha
    exact nearest_foldl_inv sel k _ none (by intro a h; cases h) a ha
  · intro i hi
    have hg := shiftClick_getD sel k i hi
    constructor
    · intro hin
      rw [hg]
      have hc : spanCond ((findNearest sel k).getD 0) k i = true := by
        simp only [spanCond, decide_eq_true_eq]
        omega
      rw [hc, Bool.or_true]
    · intro hout
      rw [hg]
      have hc : spanCond ((findNearest sel k).getD 0) k i = false := by
        simp only [spanCond, decide_eq_false_iff_not]
        omega
      rw [hc, Bool.or_false]

/-- Witness for the amended C2 theorem: the spec's own example (rows
`[0..4]`, row 1 selected, shift-click row 3) selects row 2. -/
theorem shiftClick_range_witness :
    (3 < ([false, true, false, false, false] : List Bool).length) ∧
    (shiftClick [false, true, false, false, false] 3).getD 2 false = true :=
  ⟨by decide,
    ((shiftClick_range_behavior [false, true, false, false, false] 3 (by decide)).2.2 2
      (by decide)).1 (by decide)⟩

/-- One file-or-directory record of a directory listing (`IContentsModel`
as it appears inside `content`), restricted to the fields the browser
model inspects: `name`, `path`, `type`. -/
structure DirItem where
  name : String
  path : String
  ctype : String
deriving DecidableEq

/-- A fetched contents model: `name`, `path`, `type`, the directory
listing `content` (when a directory), and the file payload (when a
single entry was fetched). -/
structure CModel where
  name : String
  path : String
  ctype : String
  content : List DirItem
  textContent : Option String
deriving DecidableEq

/-- An `ISessionId`: session id plus the path of its notebook. -/
structure SessionId where
  id : String
  notebookPath : String
deriving DecidableEq

/-- Kernel status of a connected session. -/
inductive KernelStatus
  | idle
  | busy
  | starting
  | dead
deriving DecidableEq, BEq

/-- Observable actions of the browser view model, in program order:
remote-service calls, the snapshot replacement `this._model = contents`,
and the `changed` signal emission. -/
inductive Ev
  | get (path : String)
  | save (path : String)
  | listRunning
  | connectTo (id : String)
  | setModel (path : String) (content : List DirItem)
  | emit (opName : String) (newValue : CModel)
deriving DecidableEq

/-- Whether an action is a `changed` signal emission. -/
def Ev.isEmit : Ev → Bool
  | Ev.emit _ _ => true
  | _ => false

/-- The state of `FileBrowserViewModel` relevant to the claims: current
path, current directory listing, and the recomputed session records. -/
structure ModelState where
  path : String
  items : List DirItem
  sessionIds : List SessionId
deriving DecidableEq

/-- Embedding of `FileBrowserViewModel._findSessions`: reset the session
records, scan the snapshot for notebooks; when none, return at once with
no network call; otherwise list the running sessions and connect to each
whose notebook path matches a listed notebook, keeping those whose status
is idle (the source tests `KernelStatus.Idle` twice).  `statusOf`
abstracts the status reported by `connectTo`. -/
def findSessions (items : List DirItem) (running : List SessionId)
    (statusOf : String → KernelStatus) : List Ev × List SessionId :=
  if (items.filter (fun c => c.ctype == "notebook")).isEmpty then ([], [])
  else if running.isEmpty then ([Ev.listRunning], [])
  else
    (Ev.listRunning ::
      (running.filter (fun sid =>
        ((items.filter (fun c => c.ctype == "notebook")).map (fun n => n.path)).contains
          sid.notebookPath)).map (fun sid => Ev.connectTo sid.id),
     (running.filter (fun sid =>
        ((items.filter (fun c => c.ctype == "notebook")).map (fun n => n.path)).contains
          sid.notebookPath)).filter (fun sid =>
          statusOf sid.id == KernelStatus.idle || statusOf sid.id == KernelStatus.idle))

/-- Embedding of `FileBrowserViewModel.open` (the successfully completed
path): resolve the argument against the current path, fetch it (`fetch`
abstracts `contentsManager.get`), and branch on the fetched type.  A
directory replaces the snapshot, recomputes sessions, then emits the
`open` change; anything else emits the `open` change and leaves the
state untouched. -/
def openOp (st : ModelState) (pathArg : String) (fetch : String → CModel)
    (running : List SessionId) (statusOf : String → KernelStatus) :
    List Ev × ModelState × CModel :=
  if (fetch (normalizePath st.path pathArg)).ctype == "directory" then
    ((Ev.get (normalizePath st.path pathArg) ::
        Ev.setModel (fetch (normalizePath st.path pathArg)).path
          (fetch (normalizePath st.path pathArg)).content ::
        (findSessions (fetch (normalizePath st.path pathArg)).content running statusOf).1)
      ++ [Ev.emit "open" (fetch (normalizePath st.path pathArg))],
     ⟨(fetch (normalizePath st.path pathArg)).path,
      (fetch (normalizePath st.path pathArg)).content,
      (findSessions (fetch (normalizePath st.path pathArg)).content running statusOf).2⟩,
     fetch (normalizePath st.path pathArg))
  else
    ([Ev.get (normalizePath st.path pathArg),
      Ev.emit "open" (fetch (normalizePath st.path pathArg))],
     st, fetch (normalizePath st.path pathArg))

/-- Session recomputation performs only network calls, never an emission. -/
theorem findSessions_no_emit (items : List DirItem) (running : List SessionId)
    (statusOf : String → KernelStatus) :
    ∀ e ∈ (findSessions items running statusOf).1, e.isEmit = false := by
  intro e he
  unfold findSessions at he
  split at he
  · simp at he
  · split at he
    · simp only [List.mem_singleton] at he
      rw [he]; rfl
    · simp only [List.mem_cons] at he
      rcases he with he | he
      · rw [he]; rfl
      · rcases List.mem_map.mp he with ⟨sid, hsid, hEq⟩
        rw [← hEq]; rfl

/-- C8: a snapshot with zero notebook entries makes `_findSessions`
return immediately: the session records become empty and no network call
(in particular no `listRunning`) is issued. -/
theorem findSessions_no_notebooks (items : List DirItem) (running : List SessionId)
    (statusOf : String → KernelStatus)
    (h : ∀ c ∈ items, c.ctype ≠ "notebook") :
    findSessions items running statusOf = ([], []) := by
  have hf : items.filter (fun c => c.ctype == "notebook") = [] := by
    rw [List.filter_eq_nil_iff]
    intro a ha
    simp only [beq_iff_eq]
    exact h a ha
  unfold findSessions
  rw [hf]
  rfl

/-- Witness for C8 at a directory holding a single plain file, with one
session running elsewhere. -/
theorem findSessions_no_notebooks_witness :
    (∀ c ∈ [DirItem.mk "a.txt" "a.txt" "file"], c.ctype ≠ "notebook") ∧
    findSessions [DirItem.mk "a.txt" "a.txt" "file"]
      [SessionId.mk "s1" "nb.ipynb"] (fun _ => KernelStatus.idle) = ([], []) :=
  ⟨by decide,
   findSessions_no_notebooks [DirItem.mk "a.txt" "a.txt" "file"]
     [SessionId.mk "s1" "nb.ipynb"] (fun _ => KernelStatus.idle) (by decide)⟩

/-- C6: when the fetched entry is a directory, the completed `open`
emits the `open` change exactly once, as the very last action — after
the snapshot replacement and after every session-recompute call — and
the final state carries the new listing together with session records
recomputed from that new listing. -/
theorem open_directory_emits_once_after_recompute :
    ∀ (st : ModelState) (pathArg : String) (fetch : String → CModel)
      (running : List SessionId) (statusOf : String → KernelStatus) (c : CModel),
      fetch (normalizePath st.path pathArg) = c →
      c.ctype = "directory" →
      (openOp st pathArg fetch running statusOf).1.filter Ev.isEmit = [Ev.emit "open" c] ∧
      (openOp st pathArg fetch running statusOf).1.getLast? = some (Ev.emit "open" c) ∧
      Ev.setModel c.path c.content ∈ (openOp st pathArg fetch running statusOf).1 ∧
      (openOp st pathArg fetch running statusOf).2.1 =
        ⟨c.path, c.content, (findSessions c.content running statusOf).2⟩ := by
  intro st pathArg fetch running statusOf c hc hdir
  have hb : (c.ctype == "directory") = true := by rw [hdir]; rfl
  unfold openOp
  rw [hc, if_pos hb]
  have hpre : (Ev.get (normalizePath st.path pathArg) :: Ev.setModel c.path c.content ::
      (findSessions c.content running statusOf).1).filter Ev.isEmit = [] := by
    rw [List.filter_eq_nil_iff]
    intro e he
    simp only [List.mem_cons] at he
    rcases he with rfl | he
    · simp [Ev.isEmit]
    rcases he with rfl | he
    · simp [Ev.isEmit]
    · simp [findSessions_no_emit c.content running statusOf e he]
  refine ⟨?_, ?_, ?_, rfl⟩
  · rw [List.filter_append, hpre]
    rfl
  · exact List.getLast?_concat _
  · exact List.mem_append_left _ (List.mem_cons_of_mem _ (List.mem_cons_self _ _))

/-- Witness for C6: opening a directory holding one notebook, with no
session running. -/
theorem open_directory_witness :
    (CModel.mk "d" "d" "directory" [DirItem.mk "nb.ipynb" "d/nb.ipynb" "notebook"] none).ctype
        = "directory" ∧
    (openOp ⟨"", [], []⟩ "d"
        (fun _ => CModel.mk "d" "d" "directory" [DirItem.mk "nb.ipynb" "d/nb.ipynb" "notebook"] none)
        [] (fun _ => KernelStatus.idle)).1.filter Ev.isEmit
      = [Ev.emit "open"
          (CModel.mk "d" "d" "directory" [DirItem.mk "nb.ipynb" "d/nb.ipynb" "notebook"] none)] :=
  ⟨rfl,
   (open_directory_emits_once_after_recompute ⟨"", [], []⟩ "d"
     (fun _ => CModel.mk "d" "d" "directory" [DirItem.mk "nb.ipynb" "d/nb.ipynb" "notebook"] none)
     [] (fun _ => KernelStatus.idle)
     (CModel.mk "d" "d" "directory" [DirItem.mk "nb.ipynb" "d/nb.ipynb" "notebook"] none)
     rfl rfl).1⟩

/-- C9: when the fetched entry is a file or a notebook, `open` leaves the
model state (path, listing, session records) untouched and performs
exactly one fetch followed by one `open` change carrying the fetched
entry unchanged (hence with whatever content the fetch populated). -/
theorem open_file_preserves_snapshot :
    ∀ (st : ModelState) (pathArg : String) (fetch : String → CModel)
      (running : List SessionId) (statusOf : String → KernelStatus) (c : CModel),
      fetch (normalizePath st.path pathArg) = c →
      (c.ctype = "file" ∨ c.ctype = "notebook") →
      openOp st pathArg fetch running statusOf =
        ([Ev.get (normalizePath st.path pathArg), Ev.emit "open" c], st, c) := by
  intro st pathArg fetch running statusOf c hc hft
  have hb : (c.ctype == "directory") = false := by
    rcases hft with h | h <;> rw [h] <;> rfl
  unfold openOp
  rw [hc, hb]
  simp

/-- Witness for C9: opening a plain text file with populated content. -/
theorem open_file_preserves_snapshot_witness :
    ((CModel.mk "x.txt" "x.txt" "file" [] (some "hello")).ctype = "file" ∨
      (CModel.mk "x.txt" "x.txt" "file" [] (some "hello")).ctype = "notebook") ∧
    openOp ⟨"", [], []⟩ "x.txt"
        (fun _ => CModel.mk "x.txt" "x.txt" "file" [] (some "hello"))
        [] (fun _ => KernelStatus.idle)
      = ([Ev.get (normalizePath "" "x.txt"),
          Ev.emit "open" (CModel.mk "x.txt" "x.txt" "file" [] (some "hello"))],
         ⟨"", [], []⟩, CModel.mk "x.txt" "x.txt" "file" [] (some "hello")) :=
  ⟨Or.inl rfl,
   open_file_preserves_snapshot ⟨"", [], []⟩ "x.txt"
     (fun _ => CModel.mk "x.txt" "x.txt" "file" [] (some "hello"))
     [] (fun _ => KernelStatus.idle)
     (CModel.mk "x.txt" "x.txt" "file" [] (some "hello")) rfl (Or.inl rfl)⟩

/-- The fixed upload ceiling: `private _max_upload_size_mb = 15`. -/
def maxUploadSizeMb : Nat := 15

/-- Outcome of a call to `FileBrowserViewModel.upload`: the size-gate
rejection, the `"already exists"` conflict, or the transfer being
started through `_upload`. -/
inductive UploadResult
  | rejected (msg : String)
  | conflict (msg : String)
  | started (savePath : String) (ftype : String) (format : String)
deriving DecidableEq

/-- Whether the outcome is the `"already exists"` conflict. -/
def UploadResult.isConflict : UploadResult → Bool
  | UploadResult.conflict _ => true
  | _ => false

/-- Whether the outcome is a started transfer. -/
def UploadResult.isStarted : UploadResult → Bool
  | UploadResult.started _ _ _ => true
  | _ => false

/-- The save target computed in `_upload`:
`path = path ? path + '/' + file.name : file.name`. -/
def uploadSavePath (currentPath name : String) : String :=
  if currentPath ≠ "" then currentPath ++ "/" ++ name else name

/-- The path probed for a pre-existing entry in `upload`:
`this._contentsManager.get(file.name, {})` — the bare file name. -/
def uploadProbePath (name : String) : String := name

/-- Embedding of `FileBrowserViewModel._upload` (the transfer): classify
the file by whether its name contains `.ipynb`, and save to the computed
target path. -/
def uploadPriv (currentPath name : String) : List Ev × UploadResult :=
  ([Ev.save (uploadSavePath currentPath name)],
   UploadResult.started (uploadSavePath currentPath name)
     (if strContainsStr name ".ipynb" then "notebook" else "file")
     (if strContainsStr name ".ipynb" then "json" else "base64"))

/-- The size-gate warning string built in `upload`. -/
def sizeGateMsg (name : String) : String :=
  "Cannot upload file (>" ++ toString maxUploadSizeMb ++ " MB) " ++ "\"" ++ name ++ "\""

/-- Embedding of `FileBrowserViewModel.upload(file, overwrite)`: reject
files past the size ceiling before any network call; with `overwrite`
go straight to `_upload`; otherwise probe `get(file.name)` first
(`existsAt` abstracts whether that probe resolves) and either raise the
`already exists` conflict or proceed to `_upload`. -/
def upload (currentPath name : String) (size : Nat) (overwrite : Bool)
    (existsAt : String → Bool) : List Ev × UploadResult :=
  if size > maxUploadSizeMb * 1024 * 1024 then
    ([], UploadResult.rejected (sizeGateMsg name))
  else if overwrite then uploadPriv currentPath name
  else if existsAt (uploadProbePath name) then
    ([Ev.get (uploadProbePath name)],
     UploadResult.conflict ("\"" ++ name ++ "\" already exists"))
  else
    (Ev.get (uploadProbePath name) :: (uploadPriv currentPath name).1,
     (uploadPriv currentPath name).2)

/-- C5: a file above the 15 MiB ceiling is rejected with the warning
message and zero network calls; a file at or under the ceiling always
gets past the size gate (its outcome is never the size rejection). -/
theorem upload_size_gate :
    ∀ (currentPath name : String) (size : Nat) (overwrite : Bool) (existsAt : String → Bool),
      (size > maxUploadSizeMb * 1024 * 1024 →
        upload currentPath name size overwrite existsAt
          = ([], UploadResult.rejected (sizeGateMsg name))) ∧
      (size ≤ maxUploadSizeMb * 1024 * 1024 →
        ∀ m, (upload currentPath name size overwrite existsAt).2 ≠ UploadResult.rejected m) := by
  intro cp name size ow ex
  constructor
  · intro h
    unfold upload
    rw [if_pos h]
  · intro h m
    unfold upload
    rw [if_neg (by omega)]
    by_cases how : ow = true
    · rw [if_pos how]
      simp [uploadPriv]
    · rw [if_neg how]
      by_cases hex : ex (uploadProbePath name) = true
      · rw [if_pos hex]
        simp
      · rw [if_neg hex]
        simp [uploadPriv]

/-- Witness for C5: one byte over the ceiling is rejected with no calls;
an empty file gets past the gate. -/
theorem upload_size_gate_witness :
    15728641 > maxUploadSizeMb * 1024 * 1024 ∧
    upload "" "big.bin" 15728641 false (fun _ => false)
      = ([], UploadResult.rejected (sizeGateMsg "big.bin")) ∧
    (0 ≤ maxUploadSizeMb * 1024 * 1024) ∧
    (upload "" "big.bin" 0 false (fun _ => false)).2 ≠ UploadResult.rejected (sizeGateMsg "big.bin") :=
  ⟨by decide,
   (upload_size_gate "" "big.bin" 15728641 false (fun _ => false)).1 (by decide),
   by decide,
   (upload_size_gate "" "big.bin" 0 false (fun _ => false)).2 (by decide) (sizeGateMsg "big.bin")⟩

/-- C4 counterexample: in the non-root directory `"sub"`, a file
`foo.txt` that already exists at the save target `"sub/foo.txt"` (but
not at the bare name `"foo.txt"`) raises no conflict: the probe misses
and the upload proceeds straight to the transfer. -/
theorem upload_conflict_counterexample :
    (fun p => p == "sub/foo.txt") (uploadSavePath "sub" "foo.txt") = true ∧
    ((upload "sub" "foo.txt" 1 false (fun p => p == "sub/foo.txt")).2).isConflict = false ∧
    ((upload "sub" "foo.txt" 1 false (fun p => p == "sub/foo.txt")).2).isStarted = true := by
  refine ⟨by decide, by decide, by decide⟩

/-- C4 (amended): the pre-existence probe queries the bare file name,
not the save target.  For every file under the size ceiling: when an
entry exists at the bare name, upload without `overwrite` fails with the
distinct `already exists` conflict after exactly the one probe call; and
with `overwrite = true` the call proceeds directly to the transfer — a
single save, no probe. -/
theorem upload_conflict_probe_at_bare_name :
    ∀ (currentPath name : String) (size : Nat) (existsAt : String → Bool),
      size ≤ maxUploadSizeMb * 1024 * 1024 →
      (existsAt name = true →
        upload currentPath name size false existsAt =
          ([Ev.get name], UploadResult.conflict ("\"" ++ name ++ "\" already exists"))) ∧
      (upload currentPath name size true existsAt = uploadPriv currentPath name ∧
        ((uploadPriv currentPath name).2).isStarted = true ∧
        (uploadPriv currentPath name).1 = [Ev.save (uploadSavePath currentPath name)]) := by
  intro cp name size ex hsz
  constructor
  · intro hex
    unfold upload uploadProbePath
    rw [if_neg (by omega)]
    rw [if_neg (by simp)]
    rw [if_pos hex]
  · refine ⟨?_, rfl, rfl⟩
    unfold upload
    rw [if_neg (by omega)]
    rw [if_pos rfl]

/-- Witness for the amended C4 theorem: `"b.txt"` exists at the root. -/
theorem upload_conflict_probe_witness :
    (0 ≤ maxUploadSizeMb * 1024 * 1024) ∧ ((fun p => p == "b.txt") "b.txt" = true) ∧
    upload "a" "b.txt" 0 false (fun p => p == "b.txt")
      = ([Ev.get "b.txt"], UploadResult.conflict ("\"" ++ "b.txt" ++ "\" already exists")) ∧
    upload "a" "b.txt" 0 true (fun p => p == "b.txt") = uploadPriv "a" "b.txt" :=
  ⟨by decide, by decide,
   (upload_conflict_probe_at_bare_name "a" "b.txt" 0 (fun p => p == "b.txt")
     (by decide)).1 (by decide),
   ((upload_conflict_probe_at_bare_name "a" "b.txt" 0 (fun p => p == "b.txt")
     (by decide)).2).1⟩

/-- C10: whenever the current directory is not the repository root, the
conflict probe and the save refer to different paths: the probe targets
the bare file name while the save targets `currentPath + '/' + name`. -/
theorem upload_probe_save_path_mismatch :
    ∀ (currentPath name : String), currentPath ≠ "" →
      uploadProbePath name = name ∧
      uploadSavePath currentPath name = currentPath ++ "/" ++ name ∧
      uploadProbePath name ≠ uploadSavePath currentPath name := by
  intro cp name h
  have hsave : uploadSavePath cp name = cp ++ "/" ++ name := by
    unfold uploadSavePath
    rw [if_pos h]
  refine ⟨rfl, hsave, ?_⟩
  unfold uploadProbePath
  rw [hsave]
  intro hEq
  have hlen : name.length = (cp ++ "/" ++ name).length := congrArg String.length hEq
  rw [String.length_append, String.length_append] at hlen
  have hone : ("/" : String).length = 1 := rfl
  omega

/-- Witness for C10 in the directory `"sub"`. -/
theorem upload_probe_save_path_mismatch_witness :
    (("sub" : String) ≠ "") ∧ uploadProbePath "foo.txt" ≠ uploadSavePath "sub" "foo.txt" :=
  ⟨by decide, (upload_probe_save_path_mismatch "sub" "foo.txt" (by decide)).2.2⟩

/-- What the `FileReader` callbacks installed by `_upload` may do:
call the contents manager's `save`, settle the surrounding promise via
its `resolve`/`reject`, or throw. -/
inductive ReaderEvent
  | callSave (path : String)
  | callResolve
  | callReject
  | throwErr (msg : String)
deriving DecidableEq

/-- Whether a callback action settles the promise `_upload` returned. -/
def settlesPromise : ReaderEvent → Bool
  | ReaderEvent.callResolve => true
  | ReaderEvent.callReject => true
  | _ => false

/-- Embedding of the `reader.onload` handler body of `_upload`: it calls
`save(path, model)` (whose result is discarded by the surrounding
executor) and nothing else. -/
def uploadOnLoad (currentPath name : String) : List ReaderEvent :=
  [ReaderEvent.callSave (uploadSavePath currentPath name)]

/-- Embedding of the `reader.onerror` handler body of `_upload`: it
throws an error naming the file, outside the promise chain. -/
def uploadOnError (name evt : String) : List ReaderEvent :=
  [ReaderEvent.throwErr ("Failed to upload \"" ++ name ++ "\":" ++ evt)]

/-- C3 (code evaluation): neither callback installed by `_upload` ever
invokes the executor's `resolve` or `reject` — on a successful read the
save result is dropped and the returned promise stays pending, and on a
read failure the thrown error never reaches the promise either. -/
theorem upload_promise_never_settled :
    ∀ (currentPath name evt : String),
      (uploadOnLoad currentPath name).any settlesPromise = false ∧
      (uploadOnError name evt).any settlesPromise = false := by
  intro cp name evt
  exact ⟨rfl, rfl⟩

/-- Settlement of a promise from `model.upload`: fulfilled, or rejected
with an error message. -/
inductive UploadOutcome
  | fulfilled
  | rejected (msg : String)
deriving DecidableEq

/-- One file of a multi-file upload batch, together with the settlement
of its first `upload(file)` call, the user's answer to the overwrite
dialog, and the settlement of the `upload(file, true)` retry (relevant
only when the dialog is confirmed). -/
structure BatchFile where
  name : String
  firstOutcome : UploadOutcome
  dialogOK : Bool
  retryOutcome : UploadOutcome
deriving DecidableEq

/-- The `.catch` handler attached per file in
`FileButtons._handleUploadEvent`: a fulfilled upload passes through; a
rejection whose message contains `'already exists'` shows the overwrite
dialog and, on `OK`, adopts the retry's settlement (on cancel the handler
returns `undefined`, fulfilling); any other rejection is swallowed by the
handler returning `undefined`, also fulfilling. -/
def recoverOutcome (dialogOK : Bool) (retry : UploadOutcome) : UploadOutcome → UploadOutcome
  | UploadOutcome.fulfilled => UploadOutcome.fulfilled
  | UploadOutcome.rejected msg =>
    if strContainsStr msg "already exists" then
      if dialogOK then retry else UploadOutcome.fulfilled
    else UploadOutcome.fulfilled

/-- Settlement of the caught per-file promise pushed into `promises`. -/
def caughtOutcome (f : BatchFile) : UploadOutcome :=
  recoverOutcome f.dialogOK f.retryOutcome f.firstOutcome

/-- `Promise.all` semantics on settled promises: the first rejection, if
any. -/
def firstRejection : List UploadOutcome → Option String
  | [] => none
  | UploadOutcome.fulfilled :: t => firstRejection t
  | UploadOutcome.rejected m :: _ => some m

/-- The batch's final step: one aggregate refresh, or one error display. -/
inductive BatchAction
  | refresh
  | showError (msg : String)
deriving DecidableEq

/-- Embedding of `FileButtons._handleUploadEvent`: every file's upload is
initiated (first component: one upload call per file, in order,
independent of any outcome), then `Promise.all` over the caught per-file
promises either triggers the single refresh or routes the first
surviving rejection to the error display. -/
def handleUploadEvent (files : List BatchFile) : List String × BatchAction :=
  (files.map (fun f => f.name),
   match firstRejection (files.map caughtOutcome) with
   | none => BatchAction.refresh
   | some m => BatchAction.showError m)

/-- C7 counterexample: a batch of two files in which every per-file
operation settles — file `a.txt` succeeds, file `b.txt` hits the
`already exists` conflict, the user confirms the overwrite dialog, and
the retry rejects.  Both uploads were initiated, yet the aggregate
refresh does not run: `Promise.all` rejects and the handler shows the
error instead. -/
theorem uploadBatch_counterexample :
    handleUploadEvent
        [BatchFile.mk "a.txt" UploadOutcome.fulfilled false UploadOutcome.fulfilled,
         BatchFile.mk "b.txt" (UploadOutcome.rejected "\"b.txt\" already exists") true
           (UploadOutcome.rejected "Upload failed")]
      = (["a.txt", "b.txt"], BatchAction.showError "Upload failed") ∧
    BatchAction.showError "Upload failed" ≠ BatchAction.refresh := by
  refine ⟨by decide, by decide⟩

/-- A list of settlements that are all fulfilled has no first rejection. -/
theorem firstRejection_none_of_fulfilled :
    ∀ (l : List UploadOutcome), (∀ o ∈ l, o = UploadOutcome.fulfilled) →
      firstRejection l = none := by
  intro l
  induction l with
  | nil => intro h; rfl
  | cons o t ih =>
    intro h
    have ho := h o (List.mem_cons_self o t)
    subst ho
    exact ih (fun x hx => h x (List.mem_cons_of_mem _ hx))

/-- C7 (amended): every file's upload is initiated regardless of the
other files' outcomes, and each file's settlement is handled by its own
catch handler; every first-round failure whose overwrite retry is not
both confirmed and itself rejected recovers to fulfillment, so under
mixed first-round successes and failures the single aggregate refresh
still runs once all promises settle; only a confirmed overwrite retry
that itself rejects replaces the refresh with an error display. -/
theorem uploadBatch_independent_refresh :
    ∀ (files : List BatchFile),
      (handleUploadEvent files).1 = files.map (fun f => f.name) ∧
      (∀ f, f ∈ files → (f.dialogOK = false ∨ f.retryOutcome = UploadOutcome.fulfilled) →
        caughtOutcome f = UploadOutcome.fulfilled) ∧
      ((∀ f, f ∈ files → caughtOutcome f = UploadOutcome.fulfilled) →
        (handleUploadEvent files).2 = BatchAction.refresh) := by
  intro files
  refine ⟨rfl, ?_, ?_⟩
  · intro f hf hr
    unfold caughtOutcome
    cases hfo : f.firstOutcome with
    | fulfilled => rfl
    | rejected msg =>
      simp only [recoverOutcome]
      by_cases hcs : strContainsStr msg "already exists" = true
      · rw [if_pos hcs]
        rcases hr with hd | hrf
        · rw [hd]
          simp
        · by_cases hdo : f.dialogOK = true
          · rw [if_pos hdo]
            exact hrf
          · rw [if_neg hdo]
      · rw [if_neg hcs]
  · intro h
    unfold handleUploadEvent
    rw [firstRejection_none_of_fulfilled]
    intro o ho
    rcases List.mem_map.mp ho with ⟨f, hf, hco⟩
    rw [← hco]
    exact h f hf

/-- Witness for the amended C7 theorem: a one-file batch whose upload
rejects with a non-conflict error still ends in the aggregate refresh. -/
theorem uploadBatch_independent_refresh_witness :
    (handleUploadEvent
        [BatchFile.mk "a.txt" (UploadOutcome.rejected "oops") false UploadOutcome.fulfilled]).1
      = ["a.txt"] ∧
    caughtOutcome (BatchFile.mk "a.txt" (UploadOutcome.rejected "oops") false UploadOutcome.fulfilled)
      = UploadOutcome.fulfilled ∧
    (handleUploadEvent
        [BatchFile.mk "a.txt" (UploadOutcome.rejected "oops") false UploadOutcome.fulfilled]).2
      = BatchAction.refresh :=
  ⟨(uploadBatch_independent_refresh
      [BatchFile.mk "a.txt" (UploadOutcome.rejected "oops") false UploadOutcome.fulfilled]).1,
   (uploadBatch_independent_refresh
      [BatchFile.mk "a.txt" (UploadOutcome.rejected "oops") false UploadOutcome.fulfilled]).2.1
     (BatchFile.mk "a.txt" (UploadOutcome.rejected "oops") false UploadOutcome.fulfilled)
     (by decide) (Or.inl rfl),
   (uploadBatch_independent_refresh
      [BatchFile.mk "a.txt" (UploadOutcome.rejected "oops") false UploadOutcome.fulfilled]).2.2
     (by decide)⟩
